import Mathlib

/-!
Shallow embedding of the PostHog event-pipeline runner
(`EventPipelineRunner` in the plugin server ingestion code).

The runner's stateful TypeScript methods are translated into pure Lean
functions that thread an explicit `RunnerState` and accumulate a trace of
observable effects (step invocations, step failures, dead-letter-queue
writes, ingestion warnings).  The individual pipeline steps
(`populateTeamDataStep`, `pluginsProcessEventStep`, ...) and the Kafka
producer are external collaborators; they are modelled as oracle functions
collected in `StepBehaviors`, so every theorem below quantifies over all
possible behaviors of those collaborators.
-/

deriving instance DecidableEq for Except

namespace EventPipeline

/-- A JavaScript property value, as far as the runner inspects it. -/
inductive JsValue
  | bool (b : Bool)
  | str (s : String)
  | num (n : Int)
  | null
deriving DecidableEq

/-- An incoming event before team resolution (TypeScript `PipelineEvent`):
team id and token are optional. -/
structure PipelineEvent where
  team_id : Option Int
  distinct_id : String
  event : String
  uuid : String
  token : Option String
  properties : Option (List (String × JsValue))
deriving DecidableEq

/-- An event after team resolution (TypeScript `PluginEvent`): the team id
is mandatory. -/
structure PluginEvent where
  team_id : Int
  distinct_id : String
  event : String
  uuid : String
  properties : Option (List (String × JsValue))
deriving DecidableEq

/-- A thrown JavaScript error, as far as the runner inspects it:
whether it is an instance of DependencyUnavailableError, and its message. -/
structure JsError where
  isDependencyUnavailable : Bool
  message : String
deriving DecidableEq

/-- Opaque timestamp produced by the normalize step. -/
structure Timestamp where
  val : Nat
deriving DecidableEq

/-- Opaque person record produced by the person-resolution step. -/
structure Person where
  pid : Nat
deriving DecidableEq

/-- Opaque storage-ready event produced by the prepare step. -/
structure PreparedEvent where
  payload : Nat
deriving DecidableEq

/-- Opaque final event record produced by the create-event step. -/
structure RawClickhouseEvent where
  payload : Nat
deriving DecidableEq

/-- An acknowledgement handle (a Kafka producer ack promise): either the
ack of an ingestion-warning write or the ack of the final event write. -/
inductive Ack
  | warning (teamId : Int) (typ : String) (alwaysSend : Bool)
  | event (ev : RawClickhouseEvent)
deriving DecidableEq

/-- One entry of an `args` array handed to a step or stored in a result
(the TypeScript values are untyped `any[]`). -/
inductive Arg
  | runner
  | pipelineEvent (e : PipelineEvent)
  | pluginEvent (e : PluginEvent)
  | flag (b : Bool)
  | time (t : Timestamp)
  | person (p : Person)
  | prepared (p : PreparedEvent)
  | raw (r : RawClickhouseEvent)
deriving DecidableEq

/-- The dead-letter message built by `generateEventDeadLetterQueueMessage`
(an external builder); we record exactly the data handed to it. -/
structure DeadLetterMessage where
  originalEvent : PipelineEvent
  errMessage : String
  teamId : Int
  source : String
deriving DecidableEq

/-- Observable side effects of one pipeline run. -/
inductive Effect
  | stepInvoked (name : String) (args : List Arg) (teamId : Int)
  | stepFailed (name : String) (e : JsError)
  | dlqWrite (msg : DeadLetterMessage) (ok : Bool)
  | warningEmitted (teamId : Int) (typ : String) (alwaysSend : Bool)
  | dropCounter (cause : String)
deriving DecidableEq

/-- What a piece of the pipeline can throw: a plain JavaScript error
(possibly a DependencyUnavailableError) or the runner's own
`StepErrorNoRetry`, which carries the failing step's name and arguments. -/
inductive Thrown
  | jsError (e : JsError)
  | stepErrorNoRetry (step : String) (args : List Arg) (message : String)
deriving DecidableEq

/-- The TypeScript `EventPipelineResult`. -/
structure EventPipelineResult where
  ackPromises : Option (List Ack)
  lastStep : String
  args : List Arg
  error : Option String := none
deriving DecidableEq

/-- The runner's mutable per-event state: the `poEEmbraceJoin` routing flag
and the retained original event. -/
structure RunnerState where
  poEEmbraceJoin : Bool
  originalEvent : PipelineEvent

/-- The shared `Hub` configuration the runner reads. -/
structure Hub where
  eventsToDropByToken : Option (List (String × List String))
  poeEmbraceJoinForTeams : Option (Int → Bool)
  POE_WRITES_ENABLED_MAX_TEAM_ID : Int
  poeWritesExcludeTeams : Int → Bool

/-- Oracles for the external collaborators: each pipeline step either
returns a value or throws a JavaScript error; the dead-letter write either
succeeds or fails. -/
structure StepBehaviors where
  populateTeamData : PipelineEvent → Except JsError (Option PluginEvent)
  pluginsProcessEvent : PluginEvent → Bool → Except JsError (Option PluginEvent)
  normalizeEvent : PluginEvent → Bool → Except JsError (PluginEvent × Timestamp)
  processPersons : PluginEvent → Timestamp → Bool → Except JsError (PluginEvent × Person)
  prepareEvent : PluginEvent → Bool → Except JsError PreparedEvent
  createEvent : PreparedEvent → Person → Bool → Except JsError (RawClickhouseEvent × Ack)
  normalizeProcessPerson : PluginEvent → Bool → PluginEvent
  dlqWrite : DeadLetterMessage → Except JsError Unit

/-- A run context: the shared hub plus the collaborator oracles. -/
structure RunCtx where
  hub : Hub
  steps : StepBehaviors

/-- The key used for the drop-list lookup: `event.token ||
event.team_id?.toString()` with JavaScript truthiness (an empty-string
token falls through to the team id). -/
def disallowKey (event : PipelineEvent) : Option String :=
  match event.token with
  | some t => if t = "" then event.team_id.map Int.repr else some t
  | none => event.team_id.map Int.repr

/-- `EventPipelineRunner.isEventDisallowed`. -/
def isEventDisallowed (hub : Hub) (event : PipelineEvent) : Bool :=
  match disallowKey event with
  | none => false
  | some key =>
    if key = "" then false
    else
      match hub.eventsToDropByToken with
      | none => false
      | some table =>
        match table.lookup key with
        | none => false
        | some dropIds => dropIds.contains event.distinct_id || dropIds.contains "*"

/-- `EventPipelineRunner.shouldRetry`. -/
def shouldRetry (err : JsError) : Bool :=
  err.isDependencyUnavailable

/-- The data handed to `generateEventDeadLetterQueueMessage`. -/
def mkDeadLetterMessage (originalEvent : PipelineEvent) (err : JsError) (teamId : Int)
    (stepName : String) : DeadLetterMessage :=
  { originalEvent := originalEvent, errMessage := err.message, teamId := teamId,
    source := "plugin_server_ingest_event:" ++ stepName }

/-- `EventPipelineRunner.handleError`: always throws — either it re-raises
a retryable dependency error, or (after attempting the dead-letter write
when `sentToDql` is set, swallowing any failure of that write) it raises
`StepErrorNoRetry` with the step name, its arguments and the message. -/
def handleError (ctx : RunCtx) (st : RunnerState) (err : JsError) (currentStepName : String)
    (currentArgs : List Arg) (teamId : Int) (sentToDql : Bool) : Thrown × List Effect :=
  if shouldRetry err then
    (Thrown.jsError err, [Effect.stepFailed currentStepName err])
  else if sentToDql then
    let msg := mkDeadLetterMessage st.originalEvent err teamId currentStepName
    match ctx.steps.dlqWrite msg with
    | Except.ok _ =>
        (Thrown.stepErrorNoRetry currentStepName currentArgs err.message,
          [Effect.stepFailed currentStepName err, Effect.dlqWrite msg true])
    | Except.error _ =>
        (Thrown.stepErrorNoRetry currentStepName currentArgs err.message,
          [Effect.stepFailed currentStepName err, Effect.dlqWrite msg false])
  else
    (Thrown.stepErrorNoRetry currentStepName currentArgs err.message,
      [Effect.stepFailed currentStepName err])

/-- `EventPipelineRunner.runStep`: runs one stage (its outcome is supplied
by the collaborator oracle at the call site), returning the stage's value
or propagating what `handleError` throws. -/
def runStep {α : Type} (ctx : RunCtx) (st : RunnerState) (stepName : String) (args : List Arg)
    (teamId : Int) (sentToDql : Bool) (outcome : Except JsError α) :
    Except Thrown α × List Effect :=
  match outcome with
  | Except.ok v => (Except.ok v, [Effect.stepInvoked stepName args teamId])
  | Except.error err =>
      let thrown := handleError ctx st err stepName args teamId sentToDql
      (Except.error thrown.1, Effect.stepInvoked stepName args teamId :: thrown.2)

/-- `EventPipelineRunner.registerLastStep`. -/
def registerLastStep (stepName : String) (args : List Arg) (ackPromises : Option (List Ack)) :
    EventPipelineResult :=
  { ackPromises := ackPromises, lastStep := stepName, args := args, error := none }

/-- The reserved identity-mutating event names checked when
`$process_person` is `false`. -/
def reservedProcessPersonEvents : List String :=
  ["$identify", "$create_alias", "$merge_dangerously", "$groupidentify"]

/-- The embrace-join routing condition at the top of
`runEventPipelineSteps`. -/
def poeEmbraceJoinCond (hub : Hub) (teamId : Int) : Bool :=
  (match hub.poeEmbraceJoinForTeams with
   | some f => f teamId
   | none => false)
  || (decide (teamId ≤ hub.POE_WRITES_ENABLED_MAX_TEAM_ID) && !hub.poeWritesExcludeTeams teamId)

/-- Outcome of the `$process_person` handling block of
`runEventPipelineSteps`: either terminate at `invalidEventForProvidedFlags`
or proceed (with the possibly stripped event, the derived `processPerson`
flag, the warning acks queued so far and their emission effects). -/
inductive PPOutcome
  | terminate (r : EventPipelineResult) (effs : List Effect)
  | proceed (event : PluginEvent) (processPerson : Bool) (kafkaAcks : List Ack)
      (effs : List Effect)

/-- The `$process_person` handling block of `runEventPipelineSteps`. -/
def derivePersonProcessing (ctx : RunCtx) (event : PluginEvent) : PPOutcome :=
  match event.properties with
  | none => PPOutcome.proceed event true [] []
  | some props =>
    match props.lookup "$process_person" with
    | none => PPOutcome.proceed event true [] []
    | some (JsValue.bool true) => PPOutcome.proceed event true [] []
    | some (JsValue.bool false) =>
        if reservedProcessPersonEvents.contains event.event then
          PPOutcome.terminate
            (registerLastStep "invalidEventForProvidedFlags" [Arg.pluginEvent event]
              (some [Ack.warning event.team_id "invalid_event_when_process_person_is_false" true]))
            [Effect.warningEmitted event.team_id "invalid_event_when_process_person_is_false" true]
        else
          PPOutcome.proceed (ctx.steps.normalizeProcessPerson event false) false [] []
    | some _ =>
        PPOutcome.proceed event true
          [Ack.warning event.team_id "invalid_process_person" false]
          [Effect.warningEmitted event.team_id "invalid_process_person" false]

/-- The tail of `runEventPipelineSteps`: the `$$client_ingestion_warning`
check followed by the plugin, normalize, person, prepare and create-event
stages.  The runner state is not modified here, so only the outcome and
the effect trace are returned. -/
def runPipelineStepsRest (ctx : RunCtx) (st : RunnerState) (event : PluginEvent)
    (processPerson : Bool) (kafkaAcks : List Ack) :
    Except Thrown EventPipelineResult × List Effect :=
  if event.event = "$$client_ingestion_warning" then
    (Except.ok (registerLastStep "clientIngestionWarning" [Arg.pluginEvent event]
        (some (kafkaAcks ++ [Ack.warning event.team_id "client_ingestion_warning" true]))),
      [Effect.warningEmitted event.team_id "client_ingestion_warning" true])
  else
    let runDeprecatedPlugins := processPerson
    match runStep ctx st "pluginsProcessEventStep"
        [Arg.runner, Arg.pluginEvent event, Arg.flag runDeprecatedPlugins] event.team_id true
        (ctx.steps.pluginsProcessEvent event runDeprecatedPlugins) with
    | (Except.error t, effs1) => (Except.error t, effs1)
    | (Except.ok none, effs1) =>
        (Except.ok (registerLastStep "pluginsProcessEventStep" [Arg.pluginEvent event]
            (some kafkaAcks)), effs1)
    | (Except.ok (some processedEvent), effs1) =>
      match runStep ctx st "normalizeEventStep"
          [Arg.pluginEvent processedEvent, Arg.flag processPerson] event.team_id true
          (ctx.steps.normalizeEvent processedEvent processPerson) with
      | (Except.error t, effs2) => (Except.error t, effs1 ++ effs2)
      | (Except.ok (normalizedEvent, timestamp), effs2) =>
        match runStep ctx st "processPersonsStep"
            [Arg.runner, Arg.pluginEvent normalizedEvent, Arg.time timestamp,
              Arg.flag processPerson] event.team_id true
            (ctx.steps.processPersons normalizedEvent timestamp processPerson) with
        | (Except.error t, effs3) => (Except.error t, effs1 ++ effs2 ++ effs3)
        | (Except.ok (postPersonEvent, person), effs3) =>
          match runStep ctx st "prepareEventStep"
              [Arg.runner, Arg.pluginEvent postPersonEvent, Arg.flag processPerson]
              event.team_id true
              (ctx.steps.prepareEvent postPersonEvent processPerson) with
          | (Except.error t, effs4) => (Except.error t, effs1 ++ effs2 ++ effs3 ++ effs4)
          | (Except.ok preparedEvent, effs4) =>
            match runStep ctx st "createEventStep"
                [Arg.runner, Arg.prepared preparedEvent, Arg.person person,
                  Arg.flag processPerson] event.team_id true
                (ctx.steps.createEvent preparedEvent person processPerson) with
            | (Except.error t, effs5) =>
                (Except.error t, effs1 ++ effs2 ++ effs3 ++ effs4 ++ effs5)
            | (Except.ok (rawClickhouseEvent, eventAck), effs5) =>
                (Except.ok (registerLastStep "createEventStep" [Arg.raw rawClickhouseEvent]
                    (some (kafkaAcks ++ [eventAck]))),
                  effs1 ++ effs2 ++ effs3 ++ effs4 ++ effs5)

/-- `EventPipelineRunner.runEventPipelineSteps`. -/
def runEventPipelineSteps (ctx : RunCtx) (st0 : RunnerState) (event : PluginEvent) :
    Except Thrown EventPipelineResult × RunnerState × List Effect :=
  let st := if poeEmbraceJoinCond ctx.hub event.team_id
    then { st0 with poEEmbraceJoin := true } else st0
  match derivePersonProcessing ctx event with
  | PPOutcome.terminate r effs => (Except.ok r, st, effs)
  | PPOutcome.proceed event' processPerson kafkaAcks ppEffs =>
      let rest := runPipelineStepsRest ctx st event' processPerson kafkaAcks
      (rest.1, st, ppEffs ++ rest.2)

/-- `event.team_id || -1` with JavaScript truthiness (0 is falsy). -/
def teamIdOrDefault (teamId : Option Int) : Int :=
  match teamId with
  | some t => if t = 0 then -1 else t
  | none => -1

/-- The body of the `try` block of `runEventPipeline`: disallow check,
team-population step, then the main step sequence. -/
def runEventPipelineTry (ctx : RunCtx) (st : RunnerState) (event : PipelineEvent) :
    Except Thrown EventPipelineResult × RunnerState × List Effect :=
  if isEventDisallowed ctx.hub event then
    (Except.ok (registerLastStep "eventDisallowedStep" [Arg.pipelineEvent event] none), st,
      [Effect.dropCounter "disallowed"])
  else
    match runStep ctx st "populateTeamDataStep" [Arg.runner, Arg.pipelineEvent event]
        (teamIdOrDefault event.team_id) true (ctx.steps.populateTeamData event) with
    | (Except.error t, effs) => (Except.error t, st, effs)
    | (Except.ok none, effs) =>
        (Except.ok (registerLastStep "populateTeamDataStep" [Arg.pipelineEvent event] none),
          st, effs)
    | (Except.ok (some eventWithTeam), effs) =>
        let inner := runEventPipelineSteps ctx st eventWithTeam
        (inner.1, inner.2.1, effs ++ inner.2.2)

/-- `EventPipelineRunner.runEventPipeline`: stores the original event,
runs the try block, catches `StepErrorNoRetry` (converting it into a
result with empty `args` and the error message) and re-raises any other
error. -/
def runEventPipeline (ctx : RunCtx) (st0 : RunnerState) (event : PipelineEvent) :
    Except JsError EventPipelineResult × RunnerState × List Effect :=
  let st := { st0 with originalEvent := event }
  match runEventPipelineTry ctx st event with
  | (Except.ok r, st', effs) => (Except.ok r, st', effs)
  | (Except.error (Thrown.stepErrorNoRetry step _ msg), st', effs) =>
      (Except.ok { ackPromises := none, lastStep := step, args := [], error := some msg },
        st', effs)
  | (Except.error (Thrown.jsError e), st', effs) => (Except.error e, st', effs)

/-- The step failures recorded in a trace. -/
def failuresOf (effs : List Effect) : List (String × JsError) :=
  effs.filterMap fun eff =>
    match eff with
    | Effect.stepFailed n e => some (n, e)
    | _ => none

/-- How many dead-letter writes a trace attempted. -/
def dlqAttempts (effs : List Effect) : Nat :=
  (effs.filter fun eff =>
    match eff with
    | Effect.dlqWrite _ _ => true
    | _ => false).length

/-- The names of the steps a trace invoked, in order. -/
def invokedSteps (effs : List Effect) : List String :=
  effs.filterMap fun eff =>
    match eff with
    | Effect.stepInvoked n _ _ => some n
    | _ => none

/-- How many best-effort (not always-send) warnings a trace emitted. -/
def bestEffortWarnings (effs : List Effect) : Nat :=
  (effs.filter fun eff =>
    match eff with
    | Effect.warningEmitted _ _ alwaysSend => !alwaysSend
    | _ => false).length


/-- Traces distribute over concatenation: recorded failures. -/
theorem failuresOf_append (a b : List Effect) :
    failuresOf (a ++ b) = failuresOf a ++ failuresOf b :=
  List.filterMap_append a b _

/-- Traces distribute over concatenation: dead-letter writes. -/
theorem dlqAttempts_append (a b : List Effect) :
    dlqAttempts (a ++ b) = dlqAttempts a + dlqAttempts b := by
  simp [dlqAttempts, List.filter_append]

/-- Traces distribute over concatenation: best-effort warnings. -/
theorem bestEffortWarnings_append (a b : List Effect) :
    bestEffortWarnings (a ++ b) = bestEffortWarnings a + bestEffortWarnings b := by
  simp [bestEffortWarnings, List.filter_append]

/-- Traces distribute over concatenation: invoked steps. -/
theorem invokedSteps_append (a b : List Effect) :
    invokedSteps (a ++ b) = invokedSteps a ++ invokedSteps b :=
  List.filterMap_append a b _

/-- A recorded step failure is listed by failuresOf. -/
theorem mem_failuresOf {n : String} {e : JsError} {effs : List Effect}
    (h : Effect.stepFailed n e ∈ effs) : (n, e) ∈ failuresOf effs :=
  List.mem_filterMap.mpr ⟨Effect.stepFailed n e, h, rfl⟩

/-- Classification of one pipeline fragment's outcome and trace: either it
returned a result with a clean trace, or it threw a retryable dependency
error (one recorded failure, no dead-letter write), or it threw the
no-retry signal (one recorded failure, exactly one dead-letter write). -/
def Classify (orig : PipelineEvent) (out : Except Thrown EventPipelineResult)
    (effs : List Effect) : Prop :=
  ((∃ r, out = Except.ok r) ∧ failuresOf effs = [] ∧ dlqAttempts effs = 0)
  ∨ (∃ n e, out = Except.error (Thrown.jsError e) ∧ e.isDependencyUnavailable = true
      ∧ failuresOf effs = [(n, e)] ∧ dlqAttempts effs = 0)
  ∨ (∃ n e args tid b, out = Except.error (Thrown.stepErrorNoRetry n args e.message)
      ∧ e.isDependencyUnavailable = false
      ∧ failuresOf effs = [(n, e)] ∧ dlqAttempts effs = 1
      ∧ Effect.dlqWrite (mkDeadLetterMessage orig e tid n) b ∈ effs)

theorem rest_master (ctx : RunCtx) (st : RunnerState) (event : PluginEvent) (pp : Bool)
    (acks : List Ack) :
    Classify st.originalEvent (runPipelineStepsRest ctx st event pp acks).1
        (runPipelineStepsRest ctx st event pp acks).2
    ∧ bestEffortWarnings (runPipelineStepsRest ctx st event pp acks).2 = 0
    ∧ (event.event ≠ "$$client_ingestion_warning" →
        Effect.stepInvoked "pluginsProcessEventStep"
            [Arg.runner, Arg.pluginEvent event, Arg.flag pp] event.team_id ∈
          (runPipelineStepsRest ctx st event pp acks).2) := by
  by_cases hev : event.event = "$$client_ingestion_warning"
  · simp only [runPipelineStepsRest, if_pos hev]
    refine ⟨Or.inl ⟨⟨_, rfl⟩, by simp [failuresOf], by simp [dlqAttempts]⟩,
      by simp [bestEffortWarnings], fun h => absurd hev h⟩
  · simp only [runPipelineStepsRest, if_neg hev]
    cases h1 : ctx.steps.pluginsProcessEvent event pp with
    | error e =>
      cases hd : e.isDependencyUnavailable with
      | true =>
        simp only [runStep, handleError, shouldRetry, hd, if_pos, if_true]
        refine ⟨Or.inr (Or.inl ⟨"pluginsProcessEventStep", e, rfl, hd,
            by simp [failuresOf], by simp [dlqAttempts]⟩),
          by simp [bestEffortWarnings], fun _ => by simp⟩
      | false =>
        cases hw : ctx.steps.dlqWrite
            (mkDeadLetterMessage st.originalEvent e event.team_id "pluginsProcessEventStep") with
        | ok u =>
          simp only [runStep, handleError, shouldRetry, hd, Bool.false_eq_true, if_false,
            if_true, hw]
          refine ⟨Or.inr (Or.inr ⟨"pluginsProcessEventStep", e,
              [Arg.runner, Arg.pluginEvent event, Arg.flag pp], event.team_id, true, rfl, hd,
              by simp [failuresOf], by simp [dlqAttempts], by simp⟩),
            by simp [bestEffortWarnings], fun _ => by simp⟩
        | error e2 =>
          simp only [runStep, handleError, shouldRetry, hd, Bool.false_eq_true, if_false,
            if_true, hw]
          refine ⟨Or.inr (Or.inr ⟨"pluginsProcessEventStep", e,
              [Arg.runner, Arg.pluginEvent event, Arg.flag pp], event.team_id, false, rfl, hd,
              by simp [failuresOf], by simp [dlqAttempts], by simp⟩),
            by simp [bestEffortWarnings], fun _ => by simp⟩
    | ok v =>
      cases v with
      | none =>
        simp only [runStep]
        refine ⟨Or.inl ⟨⟨_, rfl⟩, by simp [failuresOf], by simp [dlqAttempts]⟩,
          by simp [bestEffortWarnings], fun _ => by simp⟩
      | some pe =>
        simp only [runStep]
        cases h2 : ctx.steps.normalizeEvent pe pp with
        | error e =>
          cases hd : e.isDependencyUnavailable with
          | true =>
            simp only [runStep, handleError, shouldRetry, hd, if_pos, if_true]
            refine ⟨Or.inr (Or.inl ⟨"normalizeEventStep", e, rfl, hd,
                by simp [failuresOf], by simp [dlqAttempts]⟩),
              by simp [bestEffortWarnings], fun _ => by simp⟩
          | false =>
            cases hw : ctx.steps.dlqWrite
                (mkDeadLetterMessage st.originalEvent e event.team_id "normalizeEventStep") with
            | ok u =>
              simp only [runStep, handleError, shouldRetry, hd, Bool.false_eq_true, if_false,
                if_true, hw]
              refine ⟨Or.inr (Or.inr ⟨"normalizeEventStep", e,
                  [Arg.pluginEvent pe, Arg.flag pp], event.team_id, true, rfl, hd,
                  by simp [failuresOf], by simp [dlqAttempts], by simp⟩),
                by simp [bestEffortWarnings], fun _ => by simp⟩
            | error e2 =>
              simp only [runStep, handleError, shouldRetry, hd, Bool.false_eq_true, if_false,
                if_true, hw]
              refine ⟨Or.inr (Or.inr ⟨"normalizeEventStep", e,
                  [Arg.pluginEvent pe, Arg.flag pp], event.team_id, false, rfl, hd,
                  by simp [failuresOf], by simp [dlqAttempts], by simp⟩),
                by simp [bestEffortWarnings], fun _ => by simp⟩
        | ok v0 =>
          cases v0 with
          | mk ne ts =>
            simp only [runStep]
            cases h3 : ctx.steps.processPersons ne ts pp with
            | error e =>
              cases hd : e.isDependencyUnavailable with
              | true =>
                simp only [runStep, handleError, shouldRetry, hd, if_pos, if_true]
                refine ⟨Or.inr (Or.inl ⟨"processPersonsStep", e, rfl, hd,
                    by simp [failuresOf], by simp [dlqAttempts]⟩),
                  by simp [bestEffortWarnings], fun _ => by simp⟩
              | false =>
                cases hw : ctx.steps.dlqWrite
                    (mkDeadLetterMessage st.originalEvent e event.team_id "processPersonsStep") with
                | ok u =>
                  simp only [runStep, handleError, shouldRetry, hd, Bool.false_eq_true, if_false,
                    if_true, hw]
                  refine ⟨Or.inr (Or.inr ⟨"processPersonsStep", e,
                      [Arg.runner, Arg.pluginEvent ne, Arg.time ts, Arg.flag pp], event.team_id, true, rfl, hd,
                      by simp [failuresOf], by simp [dlqAttempts], by simp⟩),
                    by simp [bestEffortWarnings], fun _ => by simp⟩
                | error e2 =>
                  simp only [runStep, handleError, shouldRetry, hd, Bool.false_eq_true, if_false,
                    if_true, hw]
                  refine ⟨Or.inr (Or.inr ⟨"processPersonsStep", e,
                      [Arg.runner, Arg.pluginEvent ne, Arg.time ts, Arg.flag pp], event.team_id, false, rfl, hd,
                      by simp [failuresOf], by simp [dlqAttempts], by simp⟩),
                    by simp [bestEffortWarnings], fun _ => by simp⟩
            | ok v1 =>
              cases v1 with
              | mk ppe person =>
                simp only [runStep]
                cases h4 : ctx.steps.prepareEvent ppe pp with
                | error e =>
                  cases hd : e.isDependencyUnavailable with
                  | true =>
                    simp only [runStep, handleError, shouldRetry, hd, if_pos, if_true]
                    refine ⟨Or.inr (Or.inl ⟨"prepareEventStep", e, rfl, hd,
                        by simp [failuresOf], by simp [dlqAttempts]⟩),
                      by simp [bestEffortWarnings], fun _ => by simp⟩
                  | false =>
                    cases hw : ctx.steps.dlqWrite
                        (mkDeadLetterMessage st.originalEvent e event.team_id "prepareEventStep") with
                    | ok u =>
                      simp only [runStep, handleError, shouldRetry, hd, Bool.false_eq_true, if_false,
                        if_true, hw]
                      refine ⟨Or.inr (Or.inr ⟨"prepareEventStep", e,
                          [Arg.runner, Arg.pluginEvent ppe, Arg.flag pp], event.team_id, true, rfl, hd,
                          by simp [failuresOf], by simp [dlqAttempts], by simp⟩),
                        by simp [bestEffortWarnings], fun _ => by simp⟩
                    | error e2 =>
                      simp only [runStep, handleError, shouldRetry, hd, Bool.false_eq_true, if_false,
                        if_true, hw]
                      refine ⟨Or.inr (Or.inr ⟨"prepareEventStep", e,
                          [Arg.runner, Arg.pluginEvent ppe, Arg.flag pp], event.team_id, false, rfl, hd,
                          by simp [failuresOf], by simp [dlqAttempts], by simp⟩),
                        by simp [bestEffortWarnings], fun _ => by simp⟩
                | ok prep =>
                  simp only [runStep]
                  cases h5 : ctx.steps.createEvent prep person pp with
                  | error e =>
                    cases hd : e.isDependencyUnavailable with
                    | true =>
                      simp only [runStep, handleError, shouldRetry, hd, if_pos, if_true]
                      refine ⟨Or.inr (Or.inl ⟨"createEventStep", e, rfl, hd,
                          by simp [failuresOf], by simp [dlqAttempts]⟩),
                        by simp [bestEffortWarnings], fun _ => by simp⟩
                    | false =>
                      cases hw : ctx.steps.dlqWrite
                          (mkDeadLetterMessage st.originalEvent e event.team_id "createEventStep") with
                      | ok u =>
                        simp only [runStep, handleError, shouldRetry, hd, Bool.false_eq_true, if_false,
                          if_true, hw]
                        refine ⟨Or.inr (Or.inr ⟨"createEventStep", e,
                            [Arg.runner, Arg.prepared prep, Arg.person person, Arg.flag pp], event.team_id, true, rfl, hd,
                            by simp [failuresOf], by simp [dlqAttempts], by simp⟩),
                          by simp [bestEffortWarnings], fun _ => by simp⟩
                      | error e2 =>
                        simp only [runStep, handleError, shouldRetry, hd, Bool.false_eq_true, if_false,
                          if_true, hw]
                        refine ⟨Or.inr (Or.inr ⟨"createEventStep", e,
                            [Arg.runner, Arg.prepared prep, Arg.person person, Arg.flag pp], event.team_id, false, rfl, hd,
                            by simp [failuresOf], by simp [dlqAttempts], by simp⟩),
                          by simp [bestEffortWarnings], fun _ => by simp⟩
                  | ok v3 =>
                    cases v3 with
                    | mk raw ack =>
                      simp only [runStep]
                      refine ⟨Or.inl ⟨⟨_, rfl⟩, by simp [failuresOf], by simp [dlqAttempts]⟩,
                        by simp [bestEffortWarnings], fun _ => by simp⟩

/-- A classification is preserved by prepending effects that contain no
failures and no dead-letter writes. -/
theorem Classify.prepend_clean {orig : PipelineEvent} {out : Except Thrown EventPipelineResult}
    {effs : List Effect} (pre : List Effect) (h : Classify orig out effs)
    (h1 : failuresOf pre = []) (h2 : dlqAttempts pre = 0) :
    Classify orig out (pre ++ effs) := by
  rcases h with ⟨hr, hf, hd⟩ | ⟨n, e, ho, hret, hf, hd⟩ | ⟨n, e, args, tid, b, ho, hret, hf, hd, hm⟩
  · exact Or.inl ⟨hr, by simp [failuresOf_append, h1, hf], by simp [dlqAttempts_append, h2, hd]⟩
  · exact Or.inr (Or.inl ⟨n, e, ho, hret, by simp [failuresOf_append, h1, hf],
      by simp [dlqAttempts_append, h2, hd]⟩)
  · exact Or.inr (Or.inr ⟨n, e, args, tid, b, ho, hret, by simp [failuresOf_append, h1, hf],
      by simp [dlqAttempts_append, h2, hd], List.mem_append_right _ hm⟩)

/-- Case analysis of the `$process_person` handling block: it either
proceeds or terminates, and in both cases its own trace is clean (no step
invocations, no failures, no dead-letter writes). -/
theorem derivePP_cases (ctx : RunCtx) (event : PluginEvent) :
    (∃ ev' pp acks effs, derivePersonProcessing ctx event = PPOutcome.proceed ev' pp acks effs
      ∧ failuresOf effs = [] ∧ dlqAttempts effs = 0 ∧ invokedSteps effs = [])
    ∨ (∃ r effs, derivePersonProcessing ctx event = PPOutcome.terminate r effs
      ∧ failuresOf effs = [] ∧ dlqAttempts effs = 0 ∧ invokedSteps effs = []) := by
  cases hp : event.properties with
  | none =>
    exact Or.inl ⟨event, true, [], [], by simp [derivePersonProcessing, hp], rfl, rfl, rfl⟩
  | some props =>
    cases hl : props.lookup "$process_person" with
    | none =>
      exact Or.inl ⟨event, true, [], [],
        by simp [derivePersonProcessing, hp, hl], rfl, rfl, rfl⟩
    | some v =>
      cases v with
      | bool b =>
        cases b with
        | true =>
          exact Or.inl ⟨event, true, [], [],
            by simp [derivePersonProcessing, hp, hl], rfl, rfl, rfl⟩
        | false =>
          by_cases hres : reservedProcessPersonEvents.contains event.event
          · refine Or.inr ⟨registerLastStep "invalidEventForProvidedFlags"
              [Arg.pluginEvent event]
              (some [Ack.warning event.team_id "invalid_event_when_process_person_is_false"
                true]),
              [Effect.warningEmitted event.team_id "invalid_event_when_process_person_is_false"
                true], ?_, by simp [failuresOf], by simp [dlqAttempts], by simp [invokedSteps]⟩
            rw [List.elem_iff] at hres
            simp [derivePersonProcessing, hp, hl, hres]
          · refine Or.inl ⟨ctx.steps.normalizeProcessPerson event false, false, [], [],
              ?_, rfl, rfl, rfl⟩
            rw [List.elem_iff] at hres
            simp [derivePersonProcessing, hp, hl, hres]
      | str s =>
        exact Or.inl ⟨event, true, [Ack.warning event.team_id "invalid_process_person" false],
          [Effect.warningEmitted event.team_id "invalid_process_person" false],
          by simp [derivePersonProcessing, hp, hl], by simp [failuresOf],
          by simp [dlqAttempts], by simp [invokedSteps]⟩
      | num n =>
        exact Or.inl ⟨event, true, [Ack.warning event.team_id "invalid_process_person" false],
          [Effect.warningEmitted event.team_id "invalid_process_person" false],
          by simp [derivePersonProcessing, hp, hl], by simp [failuresOf],
          by simp [dlqAttempts], by simp [invokedSteps]⟩
      | null =>
        exact Or.inl ⟨event, true, [Ack.warning event.team_id "invalid_process_person" false],
          [Effect.warningEmitted event.team_id "invalid_process_person" false],
          by simp [derivePersonProcessing, hp, hl], by simp [failuresOf],
          by simp [dlqAttempts], by simp [invokedSteps]⟩

/-- Classification of `runEventPipelineSteps`. -/
theorem steps_master (ctx : RunCtx) (st0 : RunnerState) (event : PluginEvent) :
    Classify st0.originalEvent (runEventPipelineSteps ctx st0 event).1
      (runEventPipelineSteps ctx st0 event).2.2 := by
  have horig : (if poeEmbraceJoinCond ctx.hub event.team_id
      then { st0 with poEEmbraceJoin := true } else st0).originalEvent = st0.originalEvent := by
    split <;> rfl
  rcases derivePP_cases ctx event with ⟨ev', pp, acks, effs, hpp, hf, hd, _⟩ |
      ⟨r, effs, hpp, hf, hd, _⟩
  · have hrest := rest_master ctx (if poeEmbraceJoinCond ctx.hub event.team_id
      then { st0 with poEEmbraceJoin := true } else st0) ev' pp acks
    rw [horig] at hrest
    simp only [runEventPipelineSteps, hpp]
    exact Classify.prepend_clean effs hrest.1 hf hd
  · simp only [runEventPipelineSteps, hpp]
    exact Or.inl ⟨⟨r, rfl⟩, hf, hd⟩

/-- `runEventPipelineSteps` only updates the state by the embrace-join
routing check. -/
theorem steps_state (ctx : RunCtx) (st0 : RunnerState) (event : PluginEvent) :
    (runEventPipelineSteps ctx st0 event).2.1 =
      (if poeEmbraceJoinCond ctx.hub event.team_id
        then { st0 with poEEmbraceJoin := true } else st0) := by
  cases hpp : derivePersonProcessing ctx event <;> simp [runEventPipelineSteps, hpp]

/-- Classification of the try block of `runEventPipeline`. -/
theorem try_master (ctx : RunCtx) (st : RunnerState) (event : PipelineEvent) :
    Classify st.originalEvent (runEventPipelineTry ctx st event).1
      (runEventPipelineTry ctx st event).2.2 := by
  by_cases hdis : isEventDisallowed ctx.hub event
  · simp only [runEventPipelineTry, if_pos hdis]
    exact Or.inl ⟨⟨_, rfl⟩, by simp [failuresOf], by simp [dlqAttempts]⟩
  · simp only [runEventPipelineTry, if_neg hdis]
    cases h0 : ctx.steps.populateTeamData event with
    | error e =>
      cases hd : e.isDependencyUnavailable with
      | true =>
        simp only [runStep, handleError, shouldRetry, hd, if_pos, if_true]
        exact Or.inr (Or.inl ⟨"populateTeamDataStep", e, rfl, hd,
          by simp [failuresOf], by simp [dlqAttempts]⟩)
      | false =>
        cases hw : ctx.steps.dlqWrite (mkDeadLetterMessage st.originalEvent e
            (teamIdOrDefault event.team_id) "populateTeamDataStep") with
        | ok u =>
          simp only [runStep, handleError, shouldRetry, hd, Bool.false_eq_true, if_false,
            if_true, hw]
          exact Or.inr (Or.inr ⟨"populateTeamDataStep", e,
            [Arg.runner, Arg.pipelineEvent event], teamIdOrDefault event.team_id, true, rfl, hd,
            by simp [failuresOf], by simp [dlqAttempts], by simp⟩)
        | error e2 =>
          simp only [runStep, handleError, shouldRetry, hd, Bool.false_eq_true, if_false,
            if_true, hw]
          exact Or.inr (Or.inr ⟨"populateTeamDataStep", e,
            [Arg.runner, Arg.pipelineEvent event], teamIdOrDefault event.team_id, false, rfl, hd,
            by simp [failuresOf], by simp [dlqAttempts], by simp⟩)
    | ok v =>
      cases v with
      | none =>
        simp only [runStep]
        exact Or.inl ⟨⟨_, rfl⟩, by simp [failuresOf], by simp [dlqAttempts]⟩
      | some ewt =>
        simp only [runStep]
        exact Classify.prepend_clean _ (steps_master ctx st ewt)
          (by simp [failuresOf]) (by simp [dlqAttempts])

/-- The try block never lowers the embrace-join flag. -/
theorem try_state_mono (ctx : RunCtx) (st : RunnerState) (event : PipelineEvent) :
    ((runEventPipelineTry ctx st event).2.1).poEEmbraceJoin = st.poEEmbraceJoin
    ∨ ((runEventPipelineTry ctx st event).2.1).poEEmbraceJoin = true := by
  by_cases hdis : isEventDisallowed ctx.hub event
  · simp only [runEventPipelineTry, if_pos hdis]
    exact Or.inl trivial
  · simp only [runEventPipelineTry, if_neg hdis]
    cases h0 : ctx.steps.populateTeamData event with
    | error e =>
      simp only [runStep]
      exact Or.inl trivial
    | ok v =>
      cases v with
      | none =>
        simp only [runStep]
        exact Or.inl trivial
      | some ewt =>
        simp only [runStep]
        rw [steps_state ctx st ewt]
        by_cases hc : poeEmbraceJoinCond ctx.hub ewt.team_id
        · rw [if_pos hc]; exact Or.inr rfl
        · rw [if_neg hc]; exact Or.inl rfl

/-- Classification of a whole `runEventPipeline` call: either a clean
success, or the retryable dependency error is re-thrown (no dead-letter
write), or the no-retry path returned a result carrying the failing step
name and error message after exactly one dead-letter write attempt. -/
theorem run_master (ctx : RunCtx) (st0 : RunnerState) (event : PipelineEvent) :
    ((∃ r, (runEventPipeline ctx st0 event).1 = Except.ok r)
      ∧ failuresOf (runEventPipeline ctx st0 event).2.2 = []
      ∧ dlqAttempts (runEventPipeline ctx st0 event).2.2 = 0)
    ∨ (∃ n e, (runEventPipeline ctx st0 event).1 = Except.error e
      ∧ e.isDependencyUnavailable = true
      ∧ failuresOf (runEventPipeline ctx st0 event).2.2 = [(n, e)]
      ∧ dlqAttempts (runEventPipeline ctx st0 event).2.2 = 0)
    ∨ (∃ n e tid b, (runEventPipeline ctx st0 event).1 = Except.ok
        { ackPromises := none, lastStep := n, args := [], error := some e.message }
      ∧ e.isDependencyUnavailable = false
      ∧ failuresOf (runEventPipeline ctx st0 event).2.2 = [(n, e)]
      ∧ dlqAttempts (runEventPipeline ctx st0 event).2.2 = 1
      ∧ Effect.dlqWrite (mkDeadLetterMessage event e tid n) b ∈
          (runEventPipeline ctx st0 event).2.2) := by
  have h := try_master ctx { st0 with originalEvent := event } event
  rcases ht : runEventPipelineTry ctx { st0 with originalEvent := event } event with
    ⟨out, st', effs⟩
  rw [ht] at h
  rcases h with ⟨⟨r, hr⟩, hf, hd⟩ | ⟨n, e, ho, hret, hf, hd⟩ |
      ⟨n, e, args, tid, b, ho, hret, hf, hd, hm⟩
  · subst hr
    exact Or.inl ⟨⟨r, by simp [runEventPipeline, ht]⟩, by simp [runEventPipeline, ht, hf],
      by simp [runEventPipeline, ht, hd]⟩
  · subst ho
    exact Or.inr (Or.inl ⟨n, e, by simp [runEventPipeline, ht], hret,
      by simp [runEventPipeline, ht, hf], by simp [runEventPipeline, ht, hd]⟩)
  · subst ho
    refine Or.inr (Or.inr ⟨n, e, tid, b, by simp [runEventPipeline, ht], hret,
      by simp [runEventPipeline, ht, hf], by simp [runEventPipeline, ht, hd], ?_⟩)
    have : (runEventPipeline ctx st0 event).2.2 = effs := by simp [runEventPipeline, ht]
    rw [this]
    exact hm


/-- Auxiliary: `Nat.toDigitsCore` never shortens its accumulator. -/
theorem toDigitsCore_length_le (b fuel n : Nat) (ds : List Char) :
    ds.length ≤ (Nat.toDigitsCore b fuel n ds).length := by
  induction fuel generalizing n ds with
  | zero => simp [Nat.toDigitsCore]
  | succ f ih =>
    simp only [Nat.toDigitsCore]
    split
    · simp
    · exact le_trans (Nat.le_succ ds.length)
        (ih (n / b) (Nat.digitChar (n % b) :: ds))

/-- Auxiliary: `Nat.toDigits` is never empty. -/
theorem toDigits_ne_nil (b n : Nat) : Nat.toDigits b n ≠ [] := by
  have hpos : 0 < (Nat.toDigits b n).length := by
    unfold Nat.toDigits
    simp only [Nat.toDigitsCore]
    split
    · simp
    · exact lt_of_lt_of_le (by simp)
        (toDigitsCore_length_le b n (n / b) [Nat.digitChar (n % b)])
  exact List.ne_nil_of_length_pos hpos

/-- Auxiliary: the decimal representation of a natural number is never the
empty string. -/
theorem natRepr_ne_empty (n : Nat) : Nat.repr n ≠ "" := by
  unfold Nat.repr
  intro h
  have h2 : Nat.toDigits 10 n = [] := by
    have h3 := congrArg String.data h
    simpa [List.asString] using h3
  exact toDigits_ne_nil 10 n h2

/-- Auxiliary: the decimal representation of an integer is never the empty
string (so a drop-list key derived from a team id never fails the
JavaScript truthiness test). -/
theorem intRepr_ne_empty (i : Int) : Int.repr i ≠ "" := by
  cases i with
  | ofNat n => simpa [Int.repr] using natRepr_ne_empty n
  | negSucc n =>
    simp only [Int.repr]
    intro h
    have h2 := congrArg String.data h
    have h3 : ('-' :: (Nat.repr (n + 1)).data) = [] := h2
    simp at h3

/-- A drop-list key is never the empty string. -/
theorem disallowKey_ne_empty {event : PipelineEvent} {key : String}
    (h : disallowKey event = some key) : key ≠ "" := by
  intro hk
  rw [hk] at h
  cases ht : event.token with
  | some t =>
    simp only [disallowKey, ht] at h
    by_cases he : t = ""
    · rw [if_pos he] at h
      obtain ⟨tid, _, hrep⟩ := Option.map_eq_some'.mp h
      exact intRepr_ne_empty tid hrep
    · rw [if_neg he] at h
      injection h with h
      exact he h
  | none =>
    simp only [disallowKey, ht] at h
    obtain ⟨tid, _, hrep⟩ := Option.map_eq_some'.mp h
    exact intRepr_ne_empty tid hrep

/-- `runEventPipeline` returns the state and trace of its try block
unchanged (the catch only transforms the outcome). -/
theorem run_proj_try (ctx : RunCtx) (st0 : RunnerState) (event : PipelineEvent) :
    (runEventPipeline ctx st0 event).2.1 =
      (runEventPipelineTry ctx { st0 with originalEvent := event } event).2.1
    ∧ (runEventPipeline ctx st0 event).2.2 =
      (runEventPipelineTry ctx { st0 with originalEvent := event } event).2.2 := by
  rcases ht : runEventPipelineTry ctx { st0 with originalEvent := event } event with
    ⟨out, st', effs⟩
  cases out with
  | ok r => exact ⟨by simp [runEventPipeline, ht], by simp [runEventPipeline, ht]⟩
  | error t =>
    cases t with
    | jsError e => exact ⟨by simp [runEventPipeline, ht], by simp [runEventPipeline, ht]⟩
    | stepErrorNoRetry n args msg =>
      exact ⟨by simp [runEventPipeline, ht], by simp [runEventPipeline, ht]⟩

/-- A dead-letter write recorded in a trace makes `dlqAttempts` positive. -/
theorem dlqAttempts_pos_of_mem {m : DeadLetterMessage} {b : Bool} {effs : List Effect}
    (h : Effect.dlqWrite m b ∈ effs) : dlqAttempts effs ≠ 0 := by
  intro h0
  have hmem : Effect.dlqWrite m b ∈ effs.filter fun eff =>
      match eff with
      | Effect.dlqWrite _ _ => true
      | _ => false := List.mem_filter.mpr ⟨h, rfl⟩
  have : effs.filter (fun eff =>
      match eff with
      | Effect.dlqWrite _ _ => true
      | _ => false) = [] := List.length_eq_zero.mp h0
  rw [this] at hmem
  exact absurd hmem (List.not_mem_nil _)

/-- If a trace contains exactly one dead-letter write, any two recorded
dead-letter writes in it coincide. -/
theorem dlq_unique {m m' : DeadLetterMessage} {b b' : Bool} {effs : List Effect}
    (hone : dlqAttempts effs = 1) (h : Effect.dlqWrite m b ∈ effs)
    (h' : Effect.dlqWrite m' b' ∈ effs) : m = m' ∧ b = b' := by
  obtain ⟨x, hx⟩ := List.length_eq_one.mp hone
  have hm : Effect.dlqWrite m b ∈ effs.filter fun eff =>
      match eff with
      | Effect.dlqWrite _ _ => true
      | _ => false := List.mem_filter.mpr ⟨h, rfl⟩
  have hm' : Effect.dlqWrite m' b' ∈ effs.filter fun eff =>
      match eff with
      | Effect.dlqWrite _ _ => true
      | _ => false := List.mem_filter.mpr ⟨h', rfl⟩
  rw [hx] at hm hm'
  have e1 := List.mem_singleton.mp hm
  have e2 := List.mem_singleton.mp hm'
  have e3 := e1.trans e2.symm
  exact ⟨by injection e3, by injection e3 with _ h2⟩

/-- C1: for every event and every stage (under arbitrary collaborator
behavior), if that stage raises an error that is not the retryable
dependency kind, `runEventPipeline` returns a result whose `lastStep` is
that stage's name with a non-empty `error` field, and exactly one
dead-letter write is attempted for the event. -/
theorem claim1_nonretryable_error_run (ctx : RunCtx) (st0 : RunnerState) (ev : PipelineEvent)
    (n : String) (e : JsError)
    (hmem : Effect.stepFailed n e ∈ (runEventPipeline ctx st0 ev).2.2)
    (hnr : e.isDependencyUnavailable = false) :
    (runEventPipeline ctx st0 ev).1 = Except.ok
      { ackPromises := none, lastStep := n, args := [], error := some e.message }
    ∧ (some e.message ≠ (none : Option String))
    ∧ dlqAttempts (runEventPipeline ctx st0 ev).2.2 = 1 := by
  have hfm := mem_failuresOf hmem
  rcases run_master ctx st0 ev with ⟨_, hf, _⟩ | ⟨n', e', _, hret, hf, _⟩ |
      ⟨n', e', tid, b, ho, hret, hf, hd, _⟩
  · rw [hf] at hfm
    exact absurd hfm (List.not_mem_nil _)
  · rw [hf] at hfm
    have := List.mem_singleton.mp hfm
    have he : e = e' := by injection this with _ h2
    rw [← he] at hret
    rw [hret] at hnr
    exact absurd hnr (by simp)
  · rw [hf] at hfm
    have heq := List.mem_singleton.mp hfm
    have hn : n = n' := by injection heq
    have he : e = e' := by injection heq with _ h2
    subst hn
    subst he
    exact ⟨ho, by simp, hd⟩

/-- C2: for every event and every stage (under arbitrary collaborator
behavior), if that stage raises the retryable dependency error,
`runEventPipeline` re-raises that same error unchanged (no result is
returned) and no dead-letter message is produced. -/
theorem claim2_retryable_error_rethrown (ctx : RunCtx) (st0 : RunnerState) (ev : PipelineEvent)
    (n : String) (e : JsError)
    (hmem : Effect.stepFailed n e ∈ (runEventPipeline ctx st0 ev).2.2)
    (hret : e.isDependencyUnavailable = true) :
    (runEventPipeline ctx st0 ev).1 = Except.error e
    ∧ dlqAttempts (runEventPipeline ctx st0 ev).2.2 = 0 := by
  have hfm := mem_failuresOf hmem
  rcases run_master ctx st0 ev with ⟨_, hf, _⟩ | ⟨n', e', ho, _, hf, hd⟩ |
      ⟨n', e', tid, b, _, hnr, hf, _, _⟩
  · rw [hf] at hfm
    exact absurd hfm (List.not_mem_nil _)
  · rw [hf] at hfm
    have heq := List.mem_singleton.mp hfm
    have he : e = e' := by injection heq with _ h2
    subst he
    exact ⟨ho, hd⟩
  · rw [hf] at hfm
    have heq := List.mem_singleton.mp hfm
    have he : e = e' := by injection heq with _ h2
    rw [← he] at hnr
    rw [hret] at hnr
    exact absurd hnr (by simp)

/-- C3: for every input event (under arbitrary collaborator behavior),
`runEventPipeline` produces exactly one result on every branch; the only
branch with no result is the re-throw of a retryable dependency error. -/
theorem claim3_exactly_one_result (ctx : RunCtx) (st0 : RunnerState) (ev : PipelineEvent) :
    (∃! r, (runEventPipeline ctx st0 ev).1 = Except.ok r)
    ∨ (∃ e, (runEventPipeline ctx st0 ev).1 = Except.error e
        ∧ e.isDependencyUnavailable = true) := by
  rcases run_master ctx st0 ev with ⟨⟨r, hr⟩, _, _⟩ | ⟨n, e, ho, hret, _, _⟩ |
      ⟨n, e, tid, b, ho, _, _, _, _⟩
  · refine Or.inl ⟨r, hr, fun y hy => ?_⟩
    rw [hr] at hy
    injection hy with hy
    exact hy.symm
  · exact Or.inr ⟨e, ho, hret⟩
  · refine Or.inl ⟨_, ho, fun y hy => ?_⟩
    rw [ho] at hy
    injection hy with hy
    exact hy.symm


/-- C4: an event whose distinct id (or the wildcard) appears in the
drop-list under its derived key terminates at `eventDisallowedStep` with
no acknowledgement handles, and no pipeline stage is invoked. -/
theorem claim4_disallowed_event (ctx : RunCtx) (st0 : RunnerState) (ev : PipelineEvent)
    (key : String) (table : List (String × List String)) (ids : List String)
    (hkey : disallowKey ev = some key)
    (htab : ctx.hub.eventsToDropByToken = some table)
    (hids : table.lookup key = some ids)
    (hdid : ev.distinct_id ∈ ids ∨ "*" ∈ ids) :
    (runEventPipeline ctx st0 ev).1 = Except.ok
      { ackPromises := none, lastStep := "eventDisallowedStep",
        args := [Arg.pipelineEvent ev], error := none }
    ∧ invokedSteps (runEventPipeline ctx st0 ev).2.2 = [] := by
  have hne := disallowKey_ne_empty hkey
  have hdis : isEventDisallowed ctx.hub ev = true := by
    simp only [isEventDisallowed, hkey, htab, hids]
    rw [if_neg hne]
    simpa using hdid
  constructor
  · simp [runEventPipeline, runEventPipelineTry, hdis, registerLastStep]
  · rw [(run_proj_try ctx st0 ev).2]
    simp [runEventPipelineTry, hdis, invokedSteps]

/-- C5: for an event carrying boolean false in `$process_person` whose
name is one of the reserved identity-mutating events, the main sequence
terminates at `invalidEventForProvidedFlags` with exactly one
always-delivered warning acknowledgement, and no stage is invoked. -/
theorem claim5_process_person_false_reserved (ctx : RunCtx) (st : RunnerState)
    (ev : PluginEvent) (props : List (String × JsValue))
    (hp : ev.properties = some props)
    (hl : props.lookup "$process_person" = some (JsValue.bool false))
    (hres : ev.event ∈ reservedProcessPersonEvents) :
    (runEventPipelineSteps ctx st ev).1 = Except.ok
      { ackPromises := some
          [Ack.warning ev.team_id "invalid_event_when_process_person_is_false" true],
        lastStep := "invalidEventForProvidedFlags", args := [Arg.pluginEvent ev],
        error := none }
    ∧ invokedSteps (runEventPipelineSteps ctx st ev).2.2 = [] := by
  have hpp : derivePersonProcessing ctx ev = PPOutcome.terminate
      (registerLastStep "invalidEventForProvidedFlags" [Arg.pluginEvent ev]
        (some [Ack.warning ev.team_id "invalid_event_when_process_person_is_false" true]))
      [Effect.warningEmitted ev.team_id "invalid_event_when_process_person_is_false" true] := by
    simp [derivePersonProcessing, hp, hl, hres]
  constructor
  · simp [runEventPipelineSteps, hpp, registerLastStep]
  · simp [runEventPipelineSteps, hpp, invokedSteps]

/-- Helper for C6: once the `$process_person` block has fallen back to the
default (invalid non-boolean value), the main sequence queues exactly one
best-effort warning and, unless the event is a client ingestion warning,
invokes the plugin stage with person processing enabled on the unmodified
event. -/
theorem claim6_aux (ctx : RunCtx) (st : RunnerState) (ev : PluginEvent)
    (hpp : derivePersonProcessing ctx ev = PPOutcome.proceed ev true
      [Ack.warning ev.team_id "invalid_process_person" false]
      [Effect.warningEmitted ev.team_id "invalid_process_person" false]) :
    bestEffortWarnings (runEventPipelineSteps ctx st ev).2.2 = 1
    ∧ (ev.event ≠ "$$client_ingestion_warning" →
        Effect.stepInvoked "pluginsProcessEventStep"
            [Arg.runner, Arg.pluginEvent ev, Arg.flag true] ev.team_id ∈
          (runEventPipelineSteps ctx st ev).2.2) := by
  have hrm := rest_master ctx (if poeEmbraceJoinCond ctx.hub ev.team_id
      then { st with poEEmbraceJoin := true } else st) ev true
      [Ack.warning ev.team_id "invalid_process_person" false]
  constructor
  · simp only [runEventPipelineSteps, hpp]
    rw [bestEffortWarnings_append, hrm.2.1]
    simp [bestEffortWarnings]
  · intro hne
    have hm := hrm.2.2 hne
    simp only [runEventPipelineSteps, hpp]
    exact List.mem_append_right _ hm

/-- C6: for an event whose `$process_person` property is present but
neither boolean true nor boolean false, the pipeline continues with
person processing enabled (the plugin stage sees the unmodified event and
the enabled flag) and exactly one best-effort warning is queued. -/
theorem claim6_process_person_invalid (ctx : RunCtx) (st : RunnerState) (ev : PluginEvent)
    (props : List (String × JsValue)) (v : JsValue)
    (hp : ev.properties = some props)
    (hl : props.lookup "$process_person" = some v)
    (hvt : v ≠ JsValue.bool true) (hvf : v ≠ JsValue.bool false) :
    bestEffortWarnings (runEventPipelineSteps ctx st ev).2.2 = 1
    ∧ (ev.event ≠ "$$client_ingestion_warning" →
        Effect.stepInvoked "pluginsProcessEventStep"
            [Arg.runner, Arg.pluginEvent ev, Arg.flag true] ev.team_id ∈
          (runEventPipelineSteps ctx st ev).2.2) := by
  have hpp : derivePersonProcessing ctx ev = PPOutcome.proceed ev true
      [Ack.warning ev.team_id "invalid_process_person" false]
      [Effect.warningEmitted ev.team_id "invalid_process_person" false] := by
    cases v with
    | bool b =>
      cases b with
      | true => exact absurd rfl hvt
      | false => exact absurd rfl hvf
    | str s => simp [derivePersonProcessing, hp, hl]
    | num n => simp [derivePersonProcessing, hp, hl]
    | null => simp [derivePersonProcessing, hp, hl]
  exact claim6_aux ctx st ev hpp

/-- C7 (amended): on the non-retryable error path the internal no-retry
signal carries the failing step's arguments, but the returned result's
`args` field is empty (the arguments are not propagated into the
result). -/
theorem claim7_amended_args (ctx : RunCtx) (st0 : RunnerState) (ev : PipelineEvent)
    (n : String) (e : JsError)
    (hmem : Effect.stepFailed n e ∈ (runEventPipeline ctx st0 ev).2.2)
    (hnr : e.isDependencyUnavailable = false) :
    (runEventPipeline ctx st0 ev).1 = Except.ok
      { ackPromises := none, lastStep := n, args := [], error := some e.message }
    ∧ ∀ (st' : RunnerState) (name : String) (args : List Arg) (tid : Int),
        (@runStep (Option PluginEvent) ctx st' name args tid true (Except.error e)).1 =
          Except.error (Thrown.stepErrorNoRetry name args e.message) := by
  constructor
  · have hfm := mem_failuresOf hmem
    rcases run_master ctx st0 ev with ⟨_, hf, _⟩ | ⟨n', e', _, hret, hf, _⟩ |
        ⟨n', e', tid, b, ho, hret, hf, hd, _⟩
    · rw [hf] at hfm
      exact absurd hfm (List.not_mem_nil _)
    · rw [hf] at hfm
      have heq := List.mem_singleton.mp hfm
      have he : e = e' := by injection heq with _ h2
      rw [← he] at hret
      rw [hret] at hnr
      exact absurd hnr (by simp)
    · rw [hf] at hfm
      have heq := List.mem_singleton.mp hfm
      have hn : n = n' := by injection heq
      have he : e = e' := by injection heq with _ h2
      subst hn
      subst he
      exact ho
  · intro st' name args tid
    cases hw : ctx.steps.dlqWrite (mkDeadLetterMessage st'.originalEvent e tid name) with
    | ok u => simp [runStep, handleError, shouldRetry, hnr, hw]
    | error e2 => simp [runStep, handleError, shouldRetry, hnr, hw]

/-- C8: if a dead-letter write fails, the failure is never escalated: the
run still terminates with the original non-retryable classification — a
result carrying the failing step's name and error message, the failed
write being the one synthesized for that step. -/
theorem claim8_dlq_failure_not_escalated (ctx : RunCtx) (st0 : RunnerState)
    (ev : PipelineEvent) (m : DeadLetterMessage)
    (hmem : Effect.dlqWrite m false ∈ (runEventPipeline ctx st0 ev).2.2) :
    ∃ n e tid, (runEventPipeline ctx st0 ev).1 = Except.ok
        { ackPromises := none, lastStep := n, args := [], error := some e.message }
      ∧ e.isDependencyUnavailable = false
      ∧ m = mkDeadLetterMessage ev e tid n := by
  rcases run_master ctx st0 ev with ⟨_, _, hd⟩ | ⟨n', e', _, _, _, hd⟩ |
      ⟨n, e, tid, b, ho, hnr, hf, hd, hm⟩
  · exact absurd hd (dlqAttempts_pos_of_mem hmem)
  · exact absurd hd (dlqAttempts_pos_of_mem hmem)
  · obtain ⟨hmm, -⟩ := dlq_unique hd hmem hm
    exact ⟨n, e, tid, ho, hnr, hmm⟩

/-- C9: an event with neither token nor team id is never dropped by the
disallow check (regardless of the drop-list contents), and the run
proceeds to the team-population step. -/
theorem claim9_no_key_fails_open (ctx : RunCtx) (st0 : RunnerState) (ev : PipelineEvent)
    (htok : ev.token = none) (htid : ev.team_id = none) :
    isEventDisallowed ctx.hub ev = false
    ∧ Effect.stepInvoked "populateTeamDataStep" [Arg.runner, Arg.pipelineEvent ev] (-1) ∈
        (runEventPipeline ctx st0 ev).2.2 := by
  have hdis : isEventDisallowed ctx.hub ev = false := by
    simp [isEventDisallowed, disallowKey, htok, htid]
  refine ⟨hdis, ?_⟩
  rw [(run_proj_try ctx st0 ev).2]
  simp only [runEventPipelineTry, hdis, Bool.false_eq_true, if_false]
  cases h0 : ctx.steps.populateTeamData ev with
  | error e =>
    simp [runStep, htid, teamIdOrDefault]
  | ok v =>
    cases v with
    | none => simp [runStep, htid, teamIdOrDefault]
    | some ewt => simp [runStep, htid, teamIdOrDefault]

/-- C10: the embrace-join routing flag is monotone: `runEventPipeline` and
`runEventPipelineSteps` either leave `poEEmbraceJoin` unchanged or set it
to true; it is never reset from true to false. -/
theorem claim10_embrace_join_monotone (ctx : RunCtx) (st0 : RunnerState)
    (ev : PipelineEvent) (pev : PluginEvent) :
    (((runEventPipeline ctx st0 ev).2.1).poEEmbraceJoin = st0.poEEmbraceJoin
      ∨ ((runEventPipeline ctx st0 ev).2.1).poEEmbraceJoin = true)
    ∧ (((runEventPipelineSteps ctx st0 pev).2.1).poEEmbraceJoin = st0.poEEmbraceJoin
      ∨ ((runEventPipelineSteps ctx st0 pev).2.1).poEEmbraceJoin = true) := by
  constructor
  · rw [(run_proj_try ctx st0 ev).1]
    exact try_state_mono ctx { st0 with originalEvent := ev } ev
  · rw [steps_state ctx st0 pev]
    by_cases hc : poeEmbraceJoinCond ctx.hub pev.team_id
    · rw [if_pos hc]
      exact Or.inr rfl
    · rw [if_neg hc]
      exact Or.inl rfl


/-- A concrete incoming event used to exercise the pipeline. -/
def baseEvent : PipelineEvent :=
  { team_id := some 1, distinct_id := "u1", event := "pageview", uuid := "x",
    token := some "tok2", properties := some [] }

/-- The concrete team-resolved event produced by the team-population
oracle below. -/
def basePlugin : PluginEvent :=
  { team_id := 1, distinct_id := "u1", event := "pageview", uuid := "x",
    properties := some [] }

/-- A concrete hub: one drop-list entry, no embrace-join routing. -/
def hub0 : Hub :=
  { eventsToDropByToken := some [("tok1", ["bad"])],
    poeEmbraceJoinForTeams := none,
    POE_WRITES_ENABLED_MAX_TEAM_ID := 0,
    poeWritesExcludeTeams := fun _ => false }

/-- The concrete final event record of the all-success oracle. -/
def rawTwo : RawClickhouseEvent := { payload := 2 }

/-- A non-retryable concrete error. -/
def errBoom : JsError := { isDependencyUnavailable := false, message := "boom" }

/-- A retryable (DependencyUnavailableError) concrete error. -/
def errDown : JsError := { isDependencyUnavailable := true, message := "down" }

/-- Collaborator oracles where every stage succeeds. -/
def steps0 : StepBehaviors :=
  { populateTeamData := fun _ => Except.ok (some basePlugin),
    pluginsProcessEvent := fun e _ => Except.ok (some e),
    normalizeEvent := fun e _ => Except.ok (e, { val := 0 }),
    processPersons := fun e _ _ => Except.ok (e, { pid := 7 }),
    prepareEvent := fun _ _ => Except.ok { payload := 1 },
    createEvent := fun _ _ _ => Except.ok (rawTwo, Ack.event rawTwo),
    normalizeProcessPerson := fun e _ => e,
    dlqWrite := fun _ => Except.ok () }

/-- All-success context. -/
def ctx0 : RunCtx := { hub := hub0, steps := steps0 }

/-- Initial runner state. -/
def st0 : RunnerState := { poEEmbraceJoin := false, originalEvent := baseEvent }

/-- Context whose plugin stage throws a non-retryable error. -/
def ctxPluginsFail : RunCtx :=
  { hub := hub0,
    steps := { steps0 with pluginsProcessEvent := fun _ _ => Except.error errBoom } }

/-- Context whose plugin stage throws the retryable dependency error. -/
def ctxRetry : RunCtx :=
  { hub := hub0,
    steps := { steps0 with pluginsProcessEvent := fun _ _ => Except.error errDown } }

/-- Context whose plugin stage fails non-retryably and whose dead-letter
write also fails. -/
def ctxDlqFail : RunCtx :=
  { hub := hub0,
    steps := { steps0 with
                pluginsProcessEvent := fun _ _ => Except.error errBoom,
                dlqWrite := fun _ => Except.error errBoom } }

/-- An event matching the drop-list entry of hub0. -/
def evDrop : PipelineEvent := { baseEvent with token := some "tok1", distinct_id := "bad" }

/-- An event with neither token nor team id. -/
def evNoKey : PipelineEvent := { baseEvent with token := none, team_id := none }

/-- A reserved event with person processing disabled. -/
def pevReserved : PluginEvent :=
  { basePlugin with
    event := "$identify",
    properties := some [("$process_person", JsValue.bool false)] }

/-- An event with an invalid (non-boolean) `$process_person` value. -/
def pevInvalidPP : PluginEvent :=
  { basePlugin with properties := some [("$process_person", JsValue.str "yes")] }

/-- C7 counterexample: with the plugin stage failing non-retryably, the
last reached step was invoked with non-empty arguments, yet the returned
result's `args` field is empty — refuting the claim that the result
carries the arguments the last step was invoked with. -/
theorem claim7_counterexample :
    (runEventPipeline ctxPluginsFail st0 baseEvent).1 = Except.ok
      { ackPromises := none, lastStep := "pluginsProcessEventStep", args := [],
        error := some "boom" }
    ∧ Effect.stepInvoked "pluginsProcessEventStep"
        [Arg.runner, Arg.pluginEvent basePlugin, Arg.flag true] 1 ∈
      (runEventPipeline ctxPluginsFail st0 baseEvent).2.2
    ∧ [Arg.runner, Arg.pluginEvent basePlugin, Arg.flag true] ≠ ([] : List Arg) := by
  decide

/-- Witness for C1 at a concrete failing plugin stage. -/
theorem claim1_witness :
    (Effect.stepFailed "pluginsProcessEventStep" errBoom ∈
        (runEventPipeline ctxPluginsFail st0 baseEvent).2.2)
    ∧ ((runEventPipeline ctxPluginsFail st0 baseEvent).1 = Except.ok
        { ackPromises := none, lastStep := "pluginsProcessEventStep", args := [],
          error := some errBoom.message }
      ∧ (some errBoom.message ≠ (none : Option String))
      ∧ dlqAttempts (runEventPipeline ctxPluginsFail st0 baseEvent).2.2 = 1) :=
  ⟨by decide, claim1_nonretryable_error_run ctxPluginsFail st0 baseEvent
    "pluginsProcessEventStep" errBoom (by decide) rfl⟩

/-- Witness for C2 at a concrete retryable plugin failure. -/
theorem claim2_witness :
    (Effect.stepFailed "pluginsProcessEventStep" errDown ∈
        (runEventPipeline ctxRetry st0 baseEvent).2.2)
    ∧ ((runEventPipeline ctxRetry st0 baseEvent).1 = Except.error errDown
      ∧ dlqAttempts (runEventPipeline ctxRetry st0 baseEvent).2.2 = 0) :=
  ⟨by decide, claim2_retryable_error_rethrown ctxRetry st0 baseEvent
    "pluginsProcessEventStep" errDown (by decide) rfl⟩

/-- Witness for C4 at a concrete drop-listed event. -/
theorem claim4_witness :
    disallowKey evDrop = some "tok1"
    ∧ ctx0.hub.eventsToDropByToken = some [("tok1", ["bad"])]
    ∧ List.lookup "tok1" [("tok1", ["bad"])] = some ["bad"]
    ∧ (evDrop.distinct_id ∈ ["bad"] ∨ "*" ∈ ["bad"])
    ∧ ((runEventPipeline ctx0 st0 evDrop).1 = Except.ok
        { ackPromises := none, lastStep := "eventDisallowedStep",
          args := [Arg.pipelineEvent evDrop], error := none }
      ∧ invokedSteps (runEventPipeline ctx0 st0 evDrop).2.2 = []) :=
  ⟨by decide, by decide, by decide, by decide,
    claim4_disallowed_event ctx0 st0 evDrop "tok1" [("tok1", ["bad"])] ["bad"]
      (by decide) (by decide) (by decide) (by decide)⟩

/-- Witness for C5 at a concrete reserved event with person processing
disabled. -/
theorem claim5_witness :
    pevReserved.properties = some [("$process_person", JsValue.bool false)]
    ∧ List.lookup "$process_person" [("$process_person", JsValue.bool false)] =
        some (JsValue.bool false)
    ∧ pevReserved.event ∈ reservedProcessPersonEvents
    ∧ ((runEventPipelineSteps ctx0 st0 pevReserved).1 = Except.ok
        { ackPromises := some
            [Ack.warning pevReserved.team_id "invalid_event_when_process_person_is_false" true],
          lastStep := "invalidEventForProvidedFlags", args := [Arg.pluginEvent pevReserved],
          error := none }
      ∧ invokedSteps (runEventPipelineSteps ctx0 st0 pevReserved).2.2 = []) :=
  ⟨by decide, by decide, by decide,
    claim5_process_person_false_reserved ctx0 st0 pevReserved
      [("$process_person", JsValue.bool false)] (by decide) (by decide) (by decide)⟩

/-- Witness for C6 at a concrete event with an invalid `$process_person`
value. -/
theorem claim6_witness :
    pevInvalidPP.properties = some [("$process_person", JsValue.str "yes")]
    ∧ List.lookup "$process_person" [("$process_person", JsValue.str "yes")] =
        some (JsValue.str "yes")
    ∧ JsValue.str "yes" ≠ JsValue.bool true
    ∧ JsValue.str "yes" ≠ JsValue.bool false
    ∧ (bestEffortWarnings (runEventPipelineSteps ctx0 st0 pevInvalidPP).2.2 = 1
      ∧ (pevInvalidPP.event ≠ "$$client_ingestion_warning" →
          Effect.stepInvoked "pluginsProcessEventStep"
              [Arg.runner, Arg.pluginEvent pevInvalidPP, Arg.flag true]
              pevInvalidPP.team_id ∈
            (runEventPipelineSteps ctx0 st0 pevInvalidPP).2.2)) :=
  ⟨by decide, by decide, by decide, by decide,
    claim6_process_person_invalid ctx0 st0 pevInvalidPP
      [("$process_person", JsValue.str "yes")] (JsValue.str "yes") (by decide) (by decide)
      (by decide) (by decide)⟩

/-- Witness for the amended C7 at a concrete failing plugin stage. -/
theorem claim7_witness :
    (Effect.stepFailed "pluginsProcessEventStep" errBoom ∈
        (runEventPipeline ctxPluginsFail st0 baseEvent).2.2)
    ∧ ((runEventPipeline ctxPluginsFail st0 baseEvent).1 = Except.ok
        { ackPromises := none, lastStep := "pluginsProcessEventStep", args := [],
          error := some errBoom.message }
      ∧ ∀ (st' : RunnerState) (name : String) (args : List Arg) (tid : Int),
          (@runStep (Option PluginEvent) ctxPluginsFail st' name args tid true
              (Except.error errBoom)).1 =
            Except.error (Thrown.stepErrorNoRetry name args errBoom.message)) :=
  ⟨by decide, claim7_amended_args ctxPluginsFail st0 baseEvent
    "pluginsProcessEventStep" errBoom (by decide) rfl⟩

/-- Witness for C8 at a concrete run whose dead-letter write fails. -/
theorem claim8_witness :
    (Effect.dlqWrite (mkDeadLetterMessage baseEvent errBoom 1 "pluginsProcessEventStep")
        false ∈ (runEventPipeline ctxDlqFail st0 baseEvent).2.2)
    ∧ (∃ n e tid, (runEventPipeline ctxDlqFail st0 baseEvent).1 = Except.ok
          { ackPromises := none, lastStep := n, args := [], error := some e.message }
        ∧ e.isDependencyUnavailable = false
        ∧ mkDeadLetterMessage baseEvent errBoom 1 "pluginsProcessEventStep" =
            mkDeadLetterMessage baseEvent e tid n) :=
  ⟨by decide, claim8_dlq_failure_not_escalated ctxDlqFail st0 baseEvent
    (mkDeadLetterMessage baseEvent errBoom 1 "pluginsProcessEventStep") (by decide)⟩

/-- Witness for C9 at a concrete event with neither token nor team id. -/
theorem claim9_witness :
    evNoKey.token = none
    ∧ evNoKey.team_id = none
    ∧ (isEventDisallowed ctx0.hub evNoKey = false
      ∧ Effect.stepInvoked "populateTeamDataStep" [Arg.runner, Arg.pipelineEvent evNoKey]
          (-1) ∈ (runEventPipeline ctx0 st0 evNoKey).2.2) :=
  ⟨by decide, by decide, claim9_no_key_fails_open ctx0 st0 evNoKey (by decide) (by decide)⟩

end EventPipeline
